import Mathlib

/-!
# StarkFleet Clash: verification of the commitment scheme and game contract

Shallow embedding of the StarkFleet Clash sources:

* `contracts/src/merkle_verifier.cairo` — `compute_leaf`, `verify_proof`,
  `coords_to_index` (Cairo, on felt252 with the Pedersen hash);
* the TypeScript Merkle client (`computeLeaf`, `buildMerkleTree`,
  `generateProof`, `coordsToIndex`, `indexToCoords`);
* the main game contract (`create_game`, `join_game`, `commit_board`,
  `attack`, `reveal`, `claim_victory`, `claim_timeout`, ...).

Field elements (felt252), addresses and machine integers are modelled as `Nat`.
The Pedersen hash is an external library primitive (`core::pedersen` on the
Cairo side, `@scure/starknet` on the client side); it is modelled as an
explicit parameter `H : Nat → Nat → Nat`, since none of the verified
properties depend on its internals, only on both sides using the same `H`.
`testHash` is a concrete stand-in used for evaluating the model on inputs.
-/

namespace StarkFleet

/-- Concrete two-input hash used to run the model on concrete inputs. -/
def testHash (a b : Nat) : Nat := 3 * a + 7 * b + 11

/-! ## Cairo side: `merkle_verifier.cairo` -/

/-- Cairo `compute_leaf`: `pedersen(pedersen(pedersen(x, y), cell_value), salt)`. -/
def compute_leaf (H : Nat → Nat → Nat) (x y cell_value salt : Nat) : Nat :=
  H (H (H x y) cell_value) salt

/-- The loop body of Cairo `verify_proof`: fold the sibling list over the
current hash, pairing left/right by the parity of the running index. -/
def foldProof (H : Nat → Nat → Nat) (current_hash : Nat) (proof : List Nat)
    (index : Nat) : Nat :=
  match proof with
  | [] => current_hash
  | sibling :: rest =>
      foldProof H
        (if index % 2 = 0 then H current_hash sibling else H sibling current_hash)
        rest (index / 2)

/-- Cairo `verify_proof`: replay the proof from the leaf and compare with the
root.  The source performs no check on `leaf_index` or on the proof length. -/
def verify_proof (H : Nat → Nat → Nat) (root leaf : Nat) (proof : List Nat)
    (leaf_index : Nat) : Bool :=
  foldProof H leaf proof leaf_index == root

/-- Cairo `coords_to_index`: `y * 10 + x` (row-major). -/
def coords_to_index (x y : Nat) : Nat := y * 10 + x

/-! ## TypeScript side: the Merkle tree client -/

/-- TS `computeLeaf`; identical formula to Cairo `compute_leaf`. -/
def computeLeaf (H : Nat → Nat → Nat) (x y cellValue salt : Nat) : Nat :=
  H (H (H x y) cellValue) salt

/-- TS `coordsToIndex`: `y * 10 + x`. -/
def coordsToIndex (x y : Nat) : Nat := y * 10 + x

/-- TS `indexToCoords`: `(index % 10, index / 10)`. -/
def indexToCoords (index : Nat) : Nat × Nat := (index % 10, index / 10)

/-- The double loop of `buildMerkleTree` producing the 100 leaves:
for `y` in `0..9`, for `x` in `0..9`, push `computeLeaf(x, y, board[y][x], salt)`. -/
def boardLeaves (H : Nat → Nat → Nat) (board : List (List Nat)) (salt : Nat) :
    List Nat :=
  (List.range 10).flatMap fun y =>
    (List.range 10).map fun x =>
      computeLeaf H x y ((board.getD y []).getD x 0) salt

/-- One round of the bottom-up loop of `buildMerkleTree`:
hash adjacent pairs `(level[i], level[i+1])` into the next level. -/
def hashPairs (H : Nat → Nat → Nat) : List Nat → List Nat
  | a :: b :: rest => H a b :: hashPairs H rest
  | _ => []

/-- The `while (currentLevel.length > 1)` loop of `buildMerkleTree`, with an
explicit iteration bound (each round at least halves the level length, so
`l.length` rounds always suffice). -/
def buildTreeAux (H : Nat → Nat → Nat) : Nat → List Nat → List (List Nat)
  | 0, l => [l]
  | fuel + 1, l =>
      if l.length ≤ 1 then [l]
      else l :: buildTreeAux H fuel (hashPairs H l)

/-- The list of levels of the Merkle tree, leaves first, root level last. -/
def buildTree (H : Nat → Nat → Nat) (l : List Nat) : List (List Nat) :=
  buildTreeAux H l.length l

/-- TS `tree[tree.length - 1][0]`: the root entry of the level list. -/
def treeRoot (tree : List (List Nat)) : Nat :=
  (tree.getD (tree.length - 1) []).headD 0

/-- TS `MerkleTreeResult`. -/
structure MerkleTreeResult where
  root : Nat
  leaves : List Nat
  tree : List (List Nat)
  deriving Repr

/-- The `while (paddedLeaves.length < 128) push(0)` padding loop of
`buildMerkleTree`. -/
def paddedBoardLeaves (H : Nat → Nat → Nat) (board : List (List Nat))
    (salt : Nat) : List Nat :=
  boardLeaves H board salt ++
    List.replicate (128 - (boardLeaves H board salt).length) 0

/-- TS `buildMerkleTree`: validate the 10×10 shape (else throw, here `none`),
compute the 100 leaves, pad with zeros to 128, fold the levels bottom-up. -/
def buildMerkleTree (H : Nat → Nat → Nat) (board : List (List Nat))
    (salt : Nat) : Option MerkleTreeResult :=
  if board.length = 10 ∧ ∀ row ∈ board, row.length = 10 then
    some { root := treeRoot (buildTree H (paddedBoardLeaves H board salt))
           leaves := boardLeaves H board salt
           tree := buildTree H (paddedBoardLeaves H board salt) }
  else
    none

/-- TS `MerkleProof`. -/
structure MerkleProof where
  leaf : Nat
  proof : List Nat
  leafIndex : Nat
  deriving Repr

/-- The sibling-collecting loop of TS `generateProof`: for each level except
the last, push `tree[level][index ± 1]` and halve the index. -/
def proofSiblings (levels : List (List Nat)) (index : Nat) : List Nat :=
  match levels with
  | [] => []
  | [_] => []
  | lvl :: rest =>
      lvl.getD (if index % 2 = 0 then index + 1 else index - 1) 0 ::
        proofSiblings rest (index / 2)

/-- TS `generateProof`. -/
def generateProof (tree : List (List Nat)) (x y : Nat) : MerkleProof :=
  let leafIndex := coordsToIndex x y
  { leaf := (tree.headD []).getD leafIndex 0
    proof := proofSiblings tree leafIndex
    leafIndex := leafIndex }

/-- The all-water 10×10 board. -/
def zeroBoard : List (List Nat) := List.replicate 10 (List.replicate 10 0)

/-- The tree built over the all-water board with salt 5 and `testHash`. -/
def cexTree : List (List Nat) :=
  match buildMerkleTree testHash zeroBoard 5 with
  | some t => t.tree
  | none => []

/-- Root of `cexTree`. -/
def cexRoot : Nat :=
  match buildMerkleTree testHash zeroBoard 5 with
  | some t => t.root
  | none => 0

/-! ## The game contract (`StarkFleetClash`)

Addresses, felt252 values and machine integers are `Nat` (address 0 is the
Starknet zero address, the storage default).  Each external function is a
function from the call environment and the storage to `Except`: a Cairo
`assert` failure or arithmetic panic aborts and reverts the whole
transaction, so an error carries no state.  The STRK token transfers a call
performs are returned alongside the new storage; whether the external ERC20
call succeeds is an environment flag.  Cairo checked arithmetic (u256
multiplication/addition, u8 increment, u64 subtraction) panics on overflow,
modelled as explicit bound checks producing `ArithOverflow`. -/

/-- Cairo `GameStatus`. -/
inductive GameStatus
  | WaitingForOpponent
  | WaitingForCommitments
  | InProgress
  | Finished
  | Forfeited
  deriving DecidableEq, Repr

/-- Cairo `Game` storage record. -/
structure Game where
  id : Nat
  player1 : Nat
  player2 : Nat
  player1_root : Nat
  player2_root : Nat
  stake_amount : Nat
  current_turn : Nat
  player1_hits : Nat
  player2_hits : Nat
  last_move_time : Nat
  status : GameStatus
  winner : Nat
  pending_attack_x : Nat
  pending_attack_y : Nat
  has_pending_attack : Bool
  deriving DecidableEq, Repr

/-- The all-zero `Game` a Starknet storage map returns for an absent key. -/
def emptyGame : Game :=
  { id := 0, player1 := 0, player2 := 0, player1_root := 0, player2_root := 0
    stake_amount := 0, current_turn := 0, player1_hits := 0, player2_hits := 0
    last_move_time := 0, status := .WaitingForOpponent, winner := 0
    pending_attack_x := 0, pending_attack_y := 0, has_pending_attack := false }

/-- The contract's `Storage` struct. -/
structure ContractState where
  game_count : Nat
  games : Nat → Game
  revealed_cells : Nat → Nat → Nat → Bool
  owner : Nat
  house_balance : Nat

/-- The constructor: set `owner`, all maps at their zero defaults. -/
def initialState (owner : Nat) : ContractState :=
  { game_count := 0, games := fun _ => emptyGame
    revealed_cells := fun _ _ _ => false, owner := owner, house_balance := 0 }

/-- Per-call environment: `get_caller_address`, `get_block_timestamp` and
whether the external STRK transfer in this call succeeds. -/
structure CallEnv where
  caller : Nat
  timestamp : Nat
  transferOk : Bool
  deriving DecidableEq, Repr

/-- The contract's failure modes, named after its `assert` messages.
Spec taxonomy correspondence: `GameNotFound` = NotFound;
`GameNotJoinable`/`NotInCommitmentPhase`/`GameNotInProgress`/
`PendingAttackExists`/`NoPendingAttack`/`GameNotActive` = InvalidState;
`CannotJoinOwnGame`/`NotAPlayer`/`NotYourTurn` = Unauthorized;
`AlreadyCommitted`/`CellAlreadyAttacked` = AlreadyDone;
`WrongXCoordinate`/`WrongYCoordinate`/`InvalidMerkleProof` = ProofInvalid;
`StakeTooLow` = InsufficientStake; `TransferFailed` = EscrowFailed;
`PrizeTransferFailed` = PayoutFailed; `NotEnoughHits` = ThresholdNotMet;
`NoTimeoutToClaim` = NoTimeoutParty; `ArithOverflow` = a Cairo checked
arithmetic panic. -/
inductive CError
  | StakeTooLow
  | TransferFailed
  | GameNotFound
  | GameNotJoinable
  | CannotJoinOwnGame
  | NotInCommitmentPhase
  | NotAPlayer
  | AlreadyCommitted
  | GameNotInProgress
  | PendingAttackExists
  | NotYourTurn
  | XOutOfBounds
  | YOutOfBounds
  | CellAlreadyAttacked
  | NoPendingAttack
  | WrongXCoordinate
  | WrongYCoordinate
  | InvalidMerkleProof
  | NotEnoughHits
  | GameNotActive
  | NoTimeoutToClaim
  | TimeoutNotReached
  | PrizeTransferFailed
  | NotOwner
  | InsufficientHouseBalance
  | InvalidNewOwner
  | ArithOverflow
  deriving DecidableEq, Repr

/-- An STRK (ERC20) transfer performed by a call: `transfer_from` a user
into the contract, or `transfer` out of the contract to a user. -/
inductive Xfer
  | fromUser (user amount : Nat)
  | toUser (user amount : Nat)
  deriving DecidableEq, Repr

/-- Result of one external call: error (reverted) or new storage plus the
STRK transfers performed. -/
abbrev CResult := Except CError (ContractState × List Xfer)

def U256_MOD : Nat := 2 ^ 256

def U64_MOD : Nat := 2 ^ 64

def U8_MOD : Nat := 256

/-- `MIN_STAKE`: 1 STRK. -/
def MIN_STAKE : Nat := 1000000000000000000

/-- `HITS_TO_WIN`: the operative constant is 7 ("reduced for testing -
normally 17" in the source). -/
def HITS_TO_WIN : Nat := 7

/-- `DEFAULT_TIMEOUT`: 24 hours in seconds. -/
def DEFAULT_TIMEOUT : Nat := 86400

/-- `HOUSE_FEE_BPS`: 100 basis points = 1%. -/
def HOUSE_FEE_BPS : Nat := 100

/-- `BOARD_SIZE`: 10. -/
def BOARD_SIZE : Nat := 10

/-- `self.games.entry(game_id).write(game)`. -/
def setGame (st : ContractState) (game_id : Nat) (g : Game) : ContractState :=
  { st with games := fun k => if k = game_id then g else st.games k }

/-- `self.revealed_cells.entry((game_id, player, cell_index)).write(true)`. -/
def setRevealed (st : ContractState) (game_id player cell_index : Nat) :
    ContractState :=
  { st with revealed_cells := fun g p i =>
      if g = game_id ∧ p = player ∧ i = cell_index then true
      else st.revealed_cells g p i }

/-- `create_game`. -/
def create_game (env : CallEnv) (st : ContractState) (stake_amount : Nat) :
    CResult :=
  if stake_amount < MIN_STAKE then .error .StakeTooLow
  else if !env.transferOk then .error .TransferFailed
  else if st.game_count + 1 ≥ U64_MOD then .error .ArithOverflow
  else
    let game_id := st.game_count + 1
    let game : Game :=
      { id := game_id, player1 := env.caller, player2 := 0
        player1_root := 0, player2_root := 0, stake_amount := stake_amount
        current_turn := 0, player1_hits := 0, player2_hits := 0
        last_move_time := env.timestamp, status := .WaitingForOpponent
        winner := 0, pending_attack_x := 0, pending_attack_y := 0
        has_pending_attack := false }
    .ok (setGame { st with game_count := game_id } game_id game,
      [.fromUser env.caller stake_amount])

/-- `join_game`. -/
def join_game (env : CallEnv) (st : ContractState) (game_id : Nat) : CResult :=
  let game := st.games game_id
  if game.id = 0 then .error .GameNotFound
  else if game.status ≠ .WaitingForOpponent then .error .GameNotJoinable
  else if env.caller = game.player1 then .error .CannotJoinOwnGame
  else if !env.transferOk then .error .TransferFailed
  else
    .ok (setGame st game_id
      { game with player2 := env.caller, status := .WaitingForCommitments
                  last_move_time := env.timestamp },
      [.fromUser env.caller game.stake_amount])

/-- Tail of `commit_board` after the caller's root is recorded: if both
roots are now non-zero, move to `InProgress` and pick the first turn by
timestamp parity; always refresh `last_move_time`. -/
def commitFinish (env : CallEnv) (game : Game) : Game :=
  let game' :=
    if game.player1_root ≠ 0 ∧ game.player2_root ≠ 0 then
      { game with status := .InProgress
                  current_turn := if env.timestamp % 2 = 1 then game.player1
                                  else game.player2 }
    else game
  { game' with last_move_time := env.timestamp }

/-- `commit_board`. -/
def commit_board (env : CallEnv) (st : ContractState)
    (game_id merkle_root : Nat) : CResult :=
  let game := st.games game_id
  if game.id = 0 then .error .GameNotFound
  else if game.status ≠ .WaitingForCommitments then .error .NotInCommitmentPhase
  else if ¬(env.caller = game.player1 ∨ env.caller = game.player2) then
    .error .NotAPlayer
  else if env.caller = game.player1 then
    if game.player1_root ≠ 0 then .error .AlreadyCommitted
    else
      .ok (setGame st game_id
        (commitFinish env { game with player1_root := merkle_root }), [])
  else
    if game.player2_root ≠ 0 then .error .AlreadyCommitted
    else
      .ok (setGame st game_id
        (commitFinish env { game with player2_root := merkle_root }), [])

/-- `attack`. -/
def attack (env : CallEnv) (st : ContractState) (game_id x y : Nat) :
    CResult :=
  let game := st.games game_id
  if game.id = 0 then .error .GameNotFound
  else if game.status ≠ .InProgress then .error .GameNotInProgress
  else if game.has_pending_attack then .error .PendingAttackExists
  else if env.caller ≠ game.current_turn then .error .NotYourTurn
  else if ¬ x < BOARD_SIZE then .error .XOutOfBounds
  else if ¬ y < BOARD_SIZE then .error .YOutOfBounds
  else
    let defender := if env.caller = game.player1 then game.player2
                    else game.player1
    let cell_index := coords_to_index x y
    if st.revealed_cells game_id defender cell_index then
      .error .CellAlreadyAttacked
    else
      .ok (setGame st game_id
        { game with pending_attack_x := x, pending_attack_y := y
                    has_pending_attack := true, current_turn := defender
                    last_move_time := env.timestamp }, [])

/-- Tail of `reveal` after the hit counters are settled: mark the cell
revealed for the caller, clear the pending attack, hand the turn to the
caller. -/
def revealFinish (env : CallEnv) (st : ContractState)
    (game_id leaf_index : Nat) (game : Game) : CResult :=
  .ok (setGame (setRevealed st game_id env.caller leaf_index) game_id
    { game with has_pending_attack := false, current_turn := env.caller
                last_move_time := env.timestamp }, [])

/-- `reveal`. -/
def reveal (H : Nat → Nat → Nat) (env : CallEnv) (st : ContractState)
    (game_id x y : Nat) (is_hit : Bool) (salt : Nat) (proof : List Nat) :
    CResult :=
  let game := st.games game_id
  if game.id = 0 then .error .GameNotFound
  else if game.status ≠ .InProgress then .error .GameNotInProgress
  else if !game.has_pending_attack then .error .NoPendingAttack
  else if env.caller ≠ game.current_turn then .error .NotYourTurn
  else if x ≠ game.pending_attack_x then .error .WrongXCoordinate
  else if y ≠ game.pending_attack_y then .error .WrongYCoordinate
  else
    let root := if env.caller = game.player1 then game.player1_root
                else game.player2_root
    let cell_value : Nat := if is_hit then 1 else 0
    let leaf := compute_leaf H x y cell_value salt
    let leaf_index := coords_to_index x y
    if !verify_proof H root leaf proof leaf_index then
      .error .InvalidMerkleProof
    else
      let attacker := if env.caller = game.player1 then game.player2
                      else game.player1
      if is_hit then
        if attacker = game.player1 then
          if game.player1_hits + 1 ≥ U8_MOD then .error .ArithOverflow
          else revealFinish env st game_id leaf_index
            { game with player1_hits := game.player1_hits + 1 }
        else
          if game.player2_hits + 1 ≥ U8_MOD then .error .ArithOverflow
          else revealFinish env st game_id leaf_index
            { game with player2_hits := game.player2_hits + 1 }
      else revealFinish env st game_id leaf_index game

/-- `claim_victory`. -/
def claim_victory (env : CallEnv) (st : ContractState) (game_id : Nat) :
    CResult :=
  let game := st.games game_id
  if game.id = 0 then .error .GameNotFound
  else if game.status ≠ .InProgress then .error .GameNotInProgress
  else if ¬(env.caller = game.player1 ∨ env.caller = game.player2) then
    .error .NotAPlayer
  else
    let hits := if env.caller = game.player1 then game.player1_hits
                else game.player2_hits
    if hits < HITS_TO_WIN then .error .NotEnoughHits
    else if game.stake_amount * 2 ≥ U256_MOD then .error .ArithOverflow
    else
      let total_pot := game.stake_amount * 2
      if total_pot * HOUSE_FEE_BPS ≥ U256_MOD then .error .ArithOverflow
      else
        let house_fee := total_pot * HOUSE_FEE_BPS / 10000
        let winner_payout := total_pot - house_fee
        if st.house_balance + house_fee ≥ U256_MOD then .error .ArithOverflow
        else if !env.transferOk then .error .PrizeTransferFailed
        else
          .ok ({ setGame st game_id
                  { game with status := .Finished, winner := env.caller } with
                 house_balance := st.house_balance + house_fee },
            [.toUser env.caller winner_payout])

/-- The timed-out-party computation inside `claim_timeout`. -/
def timed_out_player (game : Game) (caller : Nat) : Nat :=
  if game.status = .WaitingForCommitments then
    if caller = game.player1 ∧ game.player2_root = 0 ∧ game.player2 ≠ 0 then
      game.player2
    else if caller = game.player2 ∧ game.player1_root = 0 then game.player1
    else 0
  else
    if game.current_turn ≠ caller then game.current_turn else 0

/-- `claim_timeout`. -/
def claim_timeout (env : CallEnv) (st : ContractState) (game_id : Nat) :
    CResult :=
  let game := st.games game_id
  if game.id = 0 then .error .GameNotFound
  else if ¬(game.status = .WaitingForCommitments ∨ game.status = .InProgress)
    then .error .GameNotActive
  else if ¬(env.caller = game.player1 ∨ env.caller = game.player2) then
    .error .NotAPlayer
  else if timed_out_player game env.caller = 0 then .error .NoTimeoutToClaim
  else if env.timestamp < game.last_move_time then .error .ArithOverflow
  else if env.timestamp - game.last_move_time < DEFAULT_TIMEOUT then
    .error .TimeoutNotReached
  else if game.status = .WaitingForCommitments ∧ game.player2 = 0 then
    if !env.transferOk then .error .PrizeTransferFailed
    else
      .ok (setGame st game_id
        { game with status := .Forfeited, winner := env.caller },
        [.toUser env.caller game.stake_amount])
  else
    if game.stake_amount * 2 ≥ U256_MOD then .error .ArithOverflow
    else if !env.transferOk then .error .PrizeTransferFailed
    else
      .ok (setGame st game_id
        { game with status := .Forfeited, winner := env.caller },
        [.toUser env.caller (game.stake_amount * 2)])

/-- `withdraw_house_funds`. -/
def withdraw_house_funds (env : CallEnv) (st : ContractState)
    (amount : Nat) : CResult :=
  if env.caller ≠ st.owner then .error .NotOwner
  else if amount > st.house_balance then .error .InsufficientHouseBalance
  else if !env.transferOk then .error .TransferFailed
  else
    .ok ({ st with house_balance := st.house_balance - amount },
      [.toUser env.caller amount])

/-- `transfer_ownership`. -/
def transfer_ownership (env : CallEnv) (st : ContractState)
    (new_owner : Nat) : CResult :=
  if env.caller ≠ st.owner then .error .NotOwner
  else if new_owner = 0 then .error .InvalidNewOwner
  else .ok ({ st with owner := new_owner }, [])

/-- One external call with its arguments. -/
inductive Call
  | create (stake_amount : Nat)
  | join (game_id : Nat)
  | commit (game_id merkle_root : Nat)
  | atk (game_id x y : Nat)
  | rev (game_id x y : Nat) (is_hit : Bool) (salt : Nat) (proof : List Nat)
  | victory (game_id : Nat)
  | timeout (game_id : Nat)
  | withdraw (amount : Nat)
  | setOwner (new_owner : Nat)
  deriving DecidableEq, Repr

/-- Entry-point dispatch. -/
def dispatch (H : Nat → Nat → Nat) (env : CallEnv) (st : ContractState) :
    Call → CResult
  | .create stake_amount => create_game env st stake_amount
  | .join game_id => join_game env st game_id
  | .commit game_id merkle_root => commit_board env st game_id merkle_root
  | .atk game_id x y => attack env st game_id x y
  | .rev game_id x y is_hit salt proof =>
      reveal H env st game_id x y is_hit salt proof
  | .victory game_id => claim_victory env st game_id
  | .timeout game_id => claim_timeout env st game_id
  | .withdraw amount => withdraw_house_funds env st amount
  | .setOwner new_owner => transfer_ownership env st new_owner

/-- Transaction semantics of a call: a Cairo assert/panic reverts the whole
transaction, leaving storage untouched and performing no transfer. -/
def execCall (H : Nat → Nat → Nat) (env : CallEnv) (st : ContractState)
    (c : Call) : ContractState × List Xfer × Option CError :=
  match dispatch H env st c with
  | .ok (st', xfs) => (st', xfs, none)
  | .error e => (st, [], some e)

/-- The game a call addresses, if any. -/
def callTarget : Call → Option Nat
  | .create _ => none
  | .join game_id => some game_id
  | .commit game_id _ => some game_id
  | .atk game_id _ _ => some game_id
  | .rev game_id _ _ _ _ _ => some game_id
  | .victory game_id => some game_id
  | .timeout game_id => some game_id
  | .withdraw _ => none
  | .setOwner _ => none

/-- Fixture environment: caller 7, timestamp 1000, ERC20 transfers succeed. -/
def env1 : CallEnv := { caller := 7, timestamp := 1000, transferOk := true }

/-- The caller's own root field; `is_player1` takes priority over
`is_player2`, as in the contract's branching. -/
def callerRoot (g : Game) (caller : Nat) : Nat :=
  if caller = g.player1 then g.player1_root else g.player2_root

/-- The counterparty's root field. -/
def otherRoot (g : Game) (caller : Nat) : Nat :=
  if caller = g.player1 then g.player2_root else g.player1_root

/-- Fixture: game 1 with both players joined, no commitments yet. -/
def gameWFC : Game :=
  { id := 1, player1 := 7, player2 := 8, player1_root := 0, player2_root := 0
    stake_amount := MIN_STAKE, current_turn := 0, player1_hits := 0
    player2_hits := 0, last_move_time := 500
    status := .WaitingForCommitments, winner := 0, pending_attack_x := 0
    pending_attack_y := 0, has_pending_attack := false }

/-- Fixture state holding `gameWFC` as game 1. -/
def stWFC : ContractState :=
  { game_count := 1, games := fun k => if k = 1 then gameWFC else emptyGame
    revealed_cells := fun _ _ _ => false, owner := 9, house_balance := 0 }

/-! ## C4: reveal -/

/-- What a successful `reveal` does, per the claim: the attacked cell is
marked revealed for the defender (the caller), the attacker's hit counter
grows by exactly 1 iff `is_hit` (the other counter unchanged), the pending
attack is cleared, and `current_turn` becomes the revealer. -/
def RevealPost (st : ContractState) (game_id x y : Nat) (is_hit : Bool)
    (caller : Nat) (st' : ContractState) : Prop :=
  let g := st.games game_id
  let attacker := if caller = g.player1 then g.player2 else g.player1
  st'.revealed_cells game_id caller (coords_to_index x y) = true ∧
  (if is_hit then
    (if attacker = g.player1 then
      (st'.games game_id).player1_hits = g.player1_hits + 1 ∧
      (st'.games game_id).player2_hits = g.player2_hits
    else
      (st'.games game_id).player2_hits = g.player2_hits + 1 ∧
      (st'.games game_id).player1_hits = g.player1_hits)
  else
    (st'.games game_id).player1_hits = g.player1_hits ∧
    (st'.games game_id).player2_hits = g.player2_hits) ∧
  (st'.games game_id).has_pending_attack = false ∧
  (st'.games game_id).current_turn = caller

/-- Fixture: in-progress game 1, pending attack on (3,4), defender 7 to
reveal.  Player 1's root is the leaf itself, so the empty sibling list
verifies (see C1). -/
def gameIP : Game :=
  { id := 1, player1 := 7, player2 := 8
    player1_root := compute_leaf testHash 3 4 1 5, player2_root := 999
    stake_amount := MIN_STAKE, current_turn := 7, player1_hits := 0
    player2_hits := 3, last_move_time := 500, status := .InProgress
    winner := 0, pending_attack_x := 3, pending_attack_y := 4
    has_pending_attack := true }

/-- Fixture state holding `gameIP` as game 1. -/
def stIP : ContractState :=
  { game_count := 1, games := fun k => if k = 1 then gameIP else emptyGame
    revealed_cells := fun _ _ _ => false, owner := 9, house_balance := 0 }

/-- The state after the fixture reveal. -/
def stIPAfterReveal : ContractState :=
  match reveal testHash env1 stIP 1 3 4 true 5 [] with
  | .ok (s, _) => s
  | .error _ => stIP

/-! ## C6 and C7: claim_victory -/

/-- The caller's hit counter, with the contract's `is_player1` priority. -/
def callerHits (g : Game) (caller : Nat) : Nat :=
  if caller = g.player1 then g.player1_hits else g.player2_hits

/-- Fixture: in-progress game 1 where player 7 has exactly 7 hits. -/
def gameV : Game :=
  { id := 1, player1 := 7, player2 := 8, player1_root := 111
    player2_root := 222, stake_amount := MIN_STAKE, current_turn := 7
    player1_hits := 7, player2_hits := 3, last_move_time := 500
    status := .InProgress, winner := 0, pending_attack_x := 0
    pending_attack_y := 0, has_pending_attack := false }

/-- Fixture state holding `gameV` as game 1. -/
def stV : ContractState :=
  { game_count := 1, games := fun k => if k = 1 then gameV else emptyGame
    revealed_cells := fun _ _ _ => false, owner := 9, house_balance := 0 }

/-- Fixture environment at exactly the timeout boundary of `gameWFC`. -/
def envT : CallEnv :=
  { caller := 7, timestamp := 500 + DEFAULT_TIMEOUT, transferOk := true }

/-- The calls allowed to modify `game_id` while it has a pending attack,
per the amended claim: `reveal`, `claim_timeout` or `claim_victory` on that
game. -/
def mayModifyGame : Call → Nat → Bool
  | .rev gid _ _ _ _ _, game_id => gid == game_id
  | .timeout gid, game_id => gid == game_id
  | .victory gid, game_id => gid == game_id
  | _, _ => false

/-- Fixture: in-progress game 1 with a pending attack on (2,2) awaiting
player 8's reveal, while player 7 already has 7 hits. -/
def gameVP : Game :=
  { id := 1, player1 := 7, player2 := 8, player1_root := 111
    player2_root := 222, stake_amount := MIN_STAKE, current_turn := 8
    player1_hits := 7, player2_hits := 3, last_move_time := 500
    status := .InProgress, winner := 0, pending_attack_x := 2
    pending_attack_y := 2, has_pending_attack := true }

/-- Fixture state holding `gameVP` as game 1. -/
def stVP : ContractState :=
  { game_count := 1, games := fun k => if k = 1 then gameVP else emptyGame
    revealed_cells := fun _ _ _ => false, owner := 9, house_balance := 0 }

/-! ## C10: a never-joined game locks the creator's stake -/

/-- Whether a transfer pays out of the contract. -/
def isPayout : Xfer → Bool
  | .toUser _ _ => true
  | .fromUser _ _ => false

/-- Fixture: game 1 freshly created by player 7, nobody has joined. -/
def gameWFO : Game :=
  { id := 1, player1 := 7, player2 := 0, player1_root := 0
    player2_root := 0, stake_amount := MIN_STAKE, current_turn := 0
    player1_hits := 0, player2_hits := 0, last_move_time := 500
    status := .WaitingForOpponent, winner := 0, pending_attack_x := 0
    pending_attack_y := 0, has_pending_attack := false }

/-- Fixture state holding `gameWFO` as game 1. -/
def stWFO : ContractState :=
  { game_count := 1, games := fun k => if k = 1 then gameWFO else emptyGame
    revealed_cells := fun _ _ _ => false, owner := 9, house_balance := 0 }

theorem hashPairs_length (H : Nat → Nat → Nat) :
    ∀ l : List Nat, (hashPairs H l).length = l.length / 2
  | [] => by simp [hashPairs]
  | [_] => by simp [hashPairs]
  | _ :: _ :: rest => by
      simp only [hashPairs, List.length_cons, hashPairs_length H rest]
      omega

theorem buildTreeAux_fuel (H : Nat → Nat → Nat) :
    ∀ (f f' : Nat) (l : List Nat), l.length ≤ f + 1 → l.length ≤ f' + 1 →
      buildTreeAux H f l = buildTreeAux H f' l := by
  intro f
  induction f with
  | zero =>
      intro f' l h1 _
      cases f' with
      | zero => rfl
      | succ g => rw [buildTreeAux, buildTreeAux, if_pos h1]
  | succ k ih =>
      intro f' l h1 h2
      cases f' with
      | zero => rw [buildTreeAux, buildTreeAux, if_pos h2]
      | succ g =>
          rw [buildTreeAux, buildTreeAux]
          by_cases hle : l.length ≤ 1
          · rw [if_pos hle, if_pos hle]
          · rw [if_neg hle, if_neg hle,
              ih g (hashPairs H l) (by rw [hashPairs_length]; omega)
                (by rw [hashPairs_length]; omega)]

/-! ## Merkle lemmas -/

theorem buildTree_eq (H : Nat → Nat → Nat) (l : List Nat) :
    buildTree H l =
      if l.length ≤ 1 then [l] else l :: buildTree H (hashPairs H l) := by
  rw [buildTree, buildTree]
  by_cases hle : l.length ≤ 1
  · obtain h | h : l.length = 0 ∨ l.length = 1 := by omega
    · rw [h, if_pos (by omega)]
      rfl
    · rw [h, buildTreeAux, if_pos hle, if_pos (by omega)]
  · obtain ⟨n, hn⟩ : ∃ n, l.length = n + 1 := ⟨l.length - 1, by omega⟩
    rw [hn, buildTreeAux, if_neg hle, if_neg (show ¬ n + 1 ≤ 1 by omega),
      buildTreeAux_fuel H n ((hashPairs H l).length) (hashPairs H l)
        (by rw [hashPairs_length]; omega) (by omega)]

theorem buildTree_ne_nil (H : Nat → Nat → Nat) (l : List Nat) :
    buildTree H l ≠ [] := by
  rw [buildTree_eq]
  split <;> simp

theorem buildTree_headD (H : Nat → Nat → Nat) (l : List Nat) :
    (buildTree H l).headD [] = l := by
  rw [buildTree_eq]
  split <;> simp

theorem treeRoot_cons (x : List Nat) (ys : List (List Nat)) (h : ys ≠ []) :
    treeRoot (x :: ys) = treeRoot ys := by
  obtain ⟨y, ys', rfl⟩ := List.exists_cons_of_ne_nil h
  simp [treeRoot, List.getD]

theorem hashPairs_getD (H : Nat → Nat → Nat) :
    ∀ (l : List Nat) (j : Nat), 2 * j + 1 < l.length →
      (hashPairs H l).getD j 0 = H (l.getD (2 * j) 0) (l.getD (2 * j + 1) 0)
  | [], _, h => by simp at h
  | [_], _, h => by
      simp only [List.length_cons, List.length_nil] at h
      omega
  | _ :: _ :: _, 0, _ => by simp [hashPairs, List.getD]
  | a :: b :: rest, j + 1, h => by
      have hrest : 2 * j + 1 < rest.length := by
        simp only [List.length_cons] at h
        omega
      have e1 : 2 * (j + 1) = 2 * j + 1 + 1 := by omega
      simp only [hashPairs, e1, List.getD_cons_succ,
        hashPairs_getD H rest j hrest]

/-- Replaying the sibling list collected by `generateProof` from leaf `i`
reaches the root of the tree, for any power-of-two leaf level. -/
theorem foldProof_buildTree (H : Nat → Nat → Nat) :
    ∀ (k : Nat) (l : List Nat) (i : Nat), l.length = 2 ^ k → i < l.length →
      foldProof H (l.getD i 0) (proofSiblings (buildTree H l) i) i =
        treeRoot (buildTree H l) := by
  intro k
  induction k with
  | zero =>
      intro l i hlen hi
      simp only [pow_zero] at hlen
      have hi0 : i = 0 := by omega
      rw [buildTree_eq, if_pos (by omega)]
      obtain ⟨a, rfl⟩ : ∃ a, l = [a] := List.length_eq_one.mp hlen
      simp [hi0, proofSiblings, foldProof, treeRoot, List.getD]
  | succ k ih =>
      intro l i hlen hi
      have hlen2 : l.length = 2 * 2 ^ k := by rw [hlen]; ring
      have hgt : ¬ l.length ≤ 1 := by
        have : (1 : Nat) ≤ 2 ^ k := Nat.one_le_two_pow
        omega
      rw [buildTree_eq, if_neg hgt]
      obtain ⟨t1, ts, ht⟩ : ∃ t1 ts, buildTree H (hashPairs H l) = t1 :: ts := by
        cases hb : buildTree H (hashPairs H l) with
        | nil => exact absurd hb (buildTree_ne_nil H _)
        | cons t1 ts => exact ⟨t1, ts, rfl⟩
      rw [ht]
      simp only [proofSiblings, foldProof]
      rw [← ht]
      have hnext_len : (hashPairs H l).length = 2 ^ k := by
        rw [hashPairs_length, hlen2]
        omega
      have hi2 : i / 2 < (hashPairs H l).length := by
        rw [hnext_len]
        omega
      have hstep :
          (if i % 2 = 0 then H (l.getD i 0) (l.getD (if i % 2 = 0 then i + 1 else i - 1) 0)
           else H (l.getD (if i % 2 = 0 then i + 1 else i - 1) 0) (l.getD i 0)) =
            (hashPairs H l).getD (i / 2) 0 := by
        rcases Nat.even_or_odd i with he | ho
        · have hmod : i % 2 = 0 := Nat.even_iff.mp he
          have hb : 2 * (i / 2) + 1 < l.length := by omega
          rw [hashPairs_getD H l (i / 2) hb]
          have e0 : 2 * (i / 2) = i := by omega
          have e1 : 2 * (i / 2) + 1 = i + 1 := by omega
          simp [hmod, e0, e1]
        · have hmod : i % 2 = 1 := Nat.odd_iff.mp ho
          have hb : 2 * (i / 2) + 1 < l.length := by omega
          rw [hashPairs_getD H l (i / 2) hb]
          have e0 : 2 * (i / 2) = i - 1 := by omega
          have e1 : 2 * (i / 2) + 1 = i := by omega
          have e2 : i - 1 + 1 = i := by omega
          simp [hmod, e0, e1, e2]
      rw [hstep, ih (hashPairs H l) (i / 2) hnext_len hi2]
      rw [treeRoot_cons _ _ (buildTree_ne_nil H _)]

theorem flatMap_range'_getD {α : Type} (f : Nat → List α) (d : α) :
    ∀ (n s y x : Nat), (∀ k, (f k).length = 10) → y < n → x < 10 →
      ((List.range' s n).flatMap f).getD (y * 10 + x) d = (f (s + y)).getD x d := by
  intro n
  induction n with
  | zero => intro s y x _ hy; omega
  | succ n ih =>
      intro s y x hlen hy hx
      rw [List.range'_succ, List.flatMap_cons]
      cases y with
      | zero =>
          rw [List.getD_append _ _ _ _ (by rw [hlen s]; omega)]
          simp
      | succ y' =>
          rw [List.getD_append_right _ _ _ _ (by rw [hlen s]; omega)]
          have e1 : (y' + 1) * 10 + x - (f s).length = y' * 10 + x := by
            rw [hlen s]; omega
          have e2 : s + (y' + 1) = s + 1 + y' := by omega
          rw [e1, e2, ih (s + 1) y' x hlen (by omega) hx]

theorem flatMap_range'_length {α : Type} (f : Nat → List α) :
    ∀ (n s : Nat), (∀ k, (f k).length = 10) →
      ((List.range' s n).flatMap f).length = n * 10 := by
  intro n
  induction n with
  | zero => intro s _; simp
  | succ n ih =>
      intro s hlen
      rw [List.range'_succ, List.flatMap_cons, List.length_append, hlen s,
        ih (s + 1) hlen]
      omega

theorem boardLeaves_length (H : Nat → Nat → Nat) (board : List (List Nat))
    (salt : Nat) : (boardLeaves H board salt).length = 100 := by
  rw [boardLeaves, List.range_eq_range',
    flatMap_range'_length _ 10 0 (fun k => by simp)]

theorem boardLeaves_getD (H : Nat → Nat → Nat) (board : List (List Nat))
    (salt x y : Nat) (hx : x < 10) (hy : y < 10) :
    (boardLeaves H board salt).getD (coordsToIndex x y) 0 =
      computeLeaf H x y ((board.getD y []).getD x 0) salt := by
  rw [boardLeaves, coordsToIndex]
  nth_rewrite 1 [List.range_eq_range']
  rw [flatMap_range'_getD _ 0 10 0 y x (fun k => by simp) hy hx]
  rw [List.getD_eq_getElem?_getD, List.getElem?_map, List.getElem?_range hx]
  simp

theorem paddedBoardLeaves_length (H : Nat → Nat → Nat)
    (board : List (List Nat)) (salt : Nat) :
    (paddedBoardLeaves H board salt).length = 128 := by
  rw [paddedBoardLeaves, List.length_append, boardLeaves_length,
    List.length_replicate]

theorem paddedBoardLeaves_getD (H : Nat → Nat → Nat) (board : List (List Nat))
    (salt x y : Nat) (hx : x < 10) (hy : y < 10) :
    (paddedBoardLeaves H board salt).getD (coordsToIndex x y) 0 =
      computeLeaf H x y ((board.getD y []).getD x 0) salt := by
  rw [paddedBoardLeaves,
    List.getD_append _ _ _ _ (by rw [boardLeaves_length, coordsToIndex]; omega),
    boardLeaves_getD H board salt x y hx hy]

/-- C2: for every 10×10 board of cells in `{0,1}`, every salt and every
in-board coordinate pair, building the tree, generating the proof for that
cell and running the Cairo verifier on the resulting root, the matching leaf,
that proof and that index succeeds. -/
theorem merkle_round_trip (H : Nat → Nat → Nat) (board : List (List Nat))
    (salt x y : Nat)
    (hshape : board.length = 10 ∧ ∀ row ∈ board, row.length = 10)
    (_hvals : ∀ row ∈ board, ∀ v ∈ row, v ≤ 1)
    (hx : x < 10) (hy : y < 10) :
    ∃ t : MerkleTreeResult, buildMerkleTree H board salt = some t ∧
      (generateProof t.tree x y).leaf =
        compute_leaf H x y ((board.getD y []).getD x 0) salt ∧
      verify_proof H t.root (generateProof t.tree x y).leaf
        (generateProof t.tree x y).proof (coords_to_index x y) = true := by
  rw [buildMerkleTree, if_pos hshape]
  refine ⟨_, rfl, ?_, ?_⟩
  · simp only [generateProof]
    rw [buildTree_headD,
      show coordsToIndex x y = coords_to_index x y from rfl]
    rw [show coords_to_index x y = coordsToIndex x y from rfl,
      paddedBoardLeaves_getD H board salt x y hx hy]
    rfl
  · simp only [generateProof, verify_proof]
    rw [buildTree_headD]
    have hidx : coordsToIndex x y < (paddedBoardLeaves H board salt).length := by
      rw [paddedBoardLeaves_length, coordsToIndex]
      omega
    have hfold := foldProof_buildTree H 7 (paddedBoardLeaves H board salt)
      (coordsToIndex x y) (by rw [paddedBoardLeaves_length]; norm_num) hidx
    rw [show coords_to_index x y = coordsToIndex x y from rfl, hfold]
    simp

/-- C2 witness: the round trip at the all-water board, salt 5, cell (3,4). -/
theorem merkle_round_trip_witness :
    ∃ t : MerkleTreeResult, buildMerkleTree testHash zeroBoard 5 = some t ∧
      (generateProof t.tree 3 4).leaf =
        compute_leaf testHash 3 4 ((zeroBoard.getD 4 []).getD 3 0) 5 ∧
      verify_proof testHash t.root (generateProof t.tree 3 4).leaf
        (generateProof t.tree 3 4).proof (coords_to_index 3 4) = true :=
  merkle_round_trip testHash zeroBoard 5 3 4 (by decide) (by decide)
    (by decide) (by decide)

set_option maxRecDepth 40000 in
/-- C1: the Cairo `verify_proof` performs neither the index-bound check nor
the proof-length check required by the specification.  With `leaf = root` and
an empty proof it accepts padding index 100; it accepts a proof of length 0
(≠ 7, the depth of the 128-leaf tree) at the valid index 3; and against a
really-built tree it accepts a full-depth sibling proof for the padding leaf
at index 100. -/
theorem verify_proof_accepts_out_of_range :
    verify_proof testHash 0 0 [] 100 = true ∧
    verify_proof testHash 0 0 [] 3 = true ∧
    verify_proof testHash cexRoot 0 (proofSiblings cexTree 100) 100 = true ∧
    (proofSiblings cexTree 100).length = 7 := by
  decide

/-! ## Storage access lemmas -/

@[simp] theorem setGame_games_self (st : ContractState) (game_id : Nat)
    (g : Game) : (setGame st game_id g).games game_id = g := by
  simp [setGame]

@[simp] theorem setGame_games_other (st : ContractState) (game_id k : Nat)
    (g : Game) (h : k ≠ game_id) :
    (setGame st game_id g).games k = st.games k := by
  simp [setGame, h]

@[simp] theorem setGame_game_count (st : ContractState) (game_id : Nat)
    (g : Game) : (setGame st game_id g).game_count = st.game_count := rfl

@[simp] theorem setGame_house_balance (st : ContractState) (game_id : Nat)
    (g : Game) : (setGame st game_id g).house_balance = st.house_balance := rfl

@[simp] theorem setGame_revealed_cells (st : ContractState) (game_id : Nat)
    (g : Game) : (setGame st game_id g).revealed_cells = st.revealed_cells :=
  rfl

@[simp] theorem setRevealed_self (st : ContractState)
    (game_id player cell_index : Nat) :
    (setRevealed st game_id player cell_index).revealed_cells game_id player
      cell_index = true := by
  simp [setRevealed]

@[simp] theorem setRevealed_games (st : ContractState)
    (game_id player cell_index : Nat) :
    (setRevealed st game_id player cell_index).games = st.games := rfl

/-! ## C5: atomicity -/

/-- C5: every operation is all-or-nothing.  Whenever a call ends in an error,
the post-transaction storage (game records, revealed cells, game count, house
balance) is exactly the pre-call storage and no STRK transfer happened.  This
is the transaction-revert semantics of Cairo asserts/panics, encoded in
`execCall`. -/
theorem execCall_atomic (H : Nat → Nat → Nat) (env : CallEnv)
    (st : ContractState) (c : Call) (e : CError)
    (herr : (execCall H env st c).2.2 = some e) :
    (execCall H env st c).1 = st ∧ (execCall H env st c).2.1 = [] := by
  unfold execCall at herr ⊢
  cases hd : dispatch H env st c with
  | ok v => rw [hd] at herr; simp at herr
  | error e' => exact ⟨rfl, rfl⟩

/-- C5 witness: joining a nonexistent game on the fresh contract fails with
`GameNotFound` and leaves the storage untouched. -/
theorem execCall_atomic_witness :
    (execCall testHash env1 (initialState 9) (.join 1)).2.2 =
      some .GameNotFound ∧
    (execCall testHash env1 (initialState 9) (.join 1)).1 = initialState 9 ∧
    (execCall testHash env1 (initialState 9) (.join 1)).2.1 = [] :=
  ⟨rfl, execCall_atomic testHash env1 (initialState 9) (.join 1)
    .GameNotFound rfl⟩

/-! ## C3: commit_board -/

theorem commitFinish_status (env : CallEnv) (g : Game) :
    (commitFinish env g).status =
      if g.player1_root ≠ 0 ∧ g.player2_root ≠ 0 then GameStatus.InProgress
      else g.status := by
  simp only [commitFinish]
  split_ifs <;> rfl

theorem commitFinish_player1 (env : CallEnv) (g : Game) :
    (commitFinish env g).player1 = g.player1 := by
  simp only [commitFinish]
  split_ifs <;> rfl

theorem commitFinish_player2 (env : CallEnv) (g : Game) :
    (commitFinish env g).player2 = g.player2 := by
  simp only [commitFinish]
  split_ifs <;> rfl

theorem commitFinish_player1_root (env : CallEnv) (g : Game) :
    (commitFinish env g).player1_root = g.player1_root := by
  simp only [commitFinish]
  split_ifs <;> rfl

theorem commitFinish_player2_root (env : CallEnv) (g : Game) :
    (commitFinish env g).player2_root = g.player2_root := by
  simp only [commitFinish]
  split_ifs <;> rfl

/-- C3: in `WaitingForCommitments`, a first commit by a player records the
root and moves the status to `InProgress` exactly when both roots are then
non-zero; a second commit by a player whose root is already non-zero fails
with `AlreadyCommitted` and (the transaction reverting) leaves that root at
its first value. -/
theorem commit_board_transition (H : Nat → Nat → Nat) (env : CallEnv)
    (st : ContractState) (game_id merkle_root : Nat)
    (hid : ¬ (st.games game_id).id = 0)
    (hst : (st.games game_id).status = .WaitingForCommitments)
    (hpl : env.caller = (st.games game_id).player1 ∨
           env.caller = (st.games game_id).player2) :
    (callerRoot (st.games game_id) env.caller = 0 →
      ∃ st', commit_board env st game_id merkle_root = .ok (st', []) ∧
        ((st'.games game_id).status = GameStatus.InProgress ↔
          (merkle_root ≠ 0 ∧ otherRoot (st.games game_id) env.caller ≠ 0)) ∧
        callerRoot (st'.games game_id) env.caller = merkle_root) ∧
    (¬ callerRoot (st.games game_id) env.caller = 0 →
      commit_board env st game_id merkle_root = .error .AlreadyCommitted ∧
      (execCall H env st (.commit game_id merkle_root)).1.games game_id =
        st.games game_id) := by
  by_cases hc : env.caller = (st.games game_id).player1
  · have hok : (st.games game_id).player1_root = 0 →
        commit_board env st game_id merkle_root =
          .ok (setGame st game_id (commitFinish env
            { st.games game_id with player1_root := merkle_root }), []) := by
      intro hroot
      simp only [commit_board]
      rw [if_neg hid, if_neg (by simp [hst]), if_neg (not_not_intro hpl),
        if_pos hc, if_neg (by simp [hroot])]
    have herr : ¬ (st.games game_id).player1_root = 0 →
        commit_board env st game_id merkle_root = .error .AlreadyCommitted := by
      intro hroot
      simp only [commit_board]
      rw [if_neg hid, if_neg (by simp [hst]), if_neg (not_not_intro hpl),
        if_pos hc, if_pos hroot]
    constructor
    · intro h0
      rw [callerRoot, if_pos hc] at h0
      refine ⟨_, hok h0, ?_, ?_⟩
      · rw [setGame_games_self, commitFinish_status, otherRoot, if_pos hc]
        dsimp only
        split_ifs with hb
        · simp [hb]
        · simp only [hst]
          constructor
          · intro hcontra; cases hcontra
          · intro hcontra; exact absurd hcontra hb
      · rw [callerRoot, setGame_games_self, commitFinish_player1,
          if_pos (by dsimp only; exact hc), commitFinish_player1_root]
    · intro h1
      rw [callerRoot, if_pos hc] at h1
      refine ⟨herr h1, ?_⟩
      simp [execCall, dispatch, herr h1]
  · have hp2 : env.caller = (st.games game_id).player2 := hpl.resolve_left hc
    have hok : (st.games game_id).player2_root = 0 →
        commit_board env st game_id merkle_root =
          .ok (setGame st game_id (commitFinish env
            { st.games game_id with player2_root := merkle_root }), []) := by
      intro hroot
      simp only [commit_board]
      rw [if_neg hid, if_neg (by simp [hst]), if_neg (not_not_intro hpl),
        if_neg hc, if_neg (by simp [hroot])]
    have herr : ¬ (st.games game_id).player2_root = 0 →
        commit_board env st game_id merkle_root = .error .AlreadyCommitted := by
      intro hroot
      simp only [commit_board]
      rw [if_neg hid, if_neg (by simp [hst]), if_neg (not_not_intro hpl),
        if_neg hc, if_pos hroot]
    constructor
    · intro h0
      rw [callerRoot, if_neg hc] at h0
      refine ⟨_, hok h0, ?_, ?_⟩
      · rw [setGame_games_self, commitFinish_status, otherRoot, if_neg hc]
        dsimp only
        split_ifs with hb
        · simp [hb]
        · simp only [hst]
          constructor
          · intro hcontra; cases hcontra
          · intro hcontra
            exact absurd ⟨hcontra.2, hcontra.1⟩ hb
      · rw [callerRoot, setGame_games_self, commitFinish_player1,
          if_neg (by dsimp only; exact hc), commitFinish_player2_root]
    · intro h1
      rw [callerRoot, if_neg hc] at h1
      refine ⟨herr h1, ?_⟩
      simp [execCall, dispatch, herr h1]

/-- C3 witness: player 7 committing root 12345 on the fixture game. -/
theorem commit_board_transition_witness :
    (callerRoot (stWFC.games 1) env1.caller = 0 →
      ∃ st', commit_board env1 stWFC 1 12345 = .ok (st', []) ∧
        ((st'.games 1).status = GameStatus.InProgress ↔
          ((12345 : Nat) ≠ 0 ∧ otherRoot (stWFC.games 1) env1.caller ≠ 0)) ∧
        callerRoot (st'.games 1) env1.caller = 12345) ∧
    (¬ callerRoot (stWFC.games 1) env1.caller = 0 →
      commit_board env1 stWFC 1 12345 = .error .AlreadyCommitted ∧
      (execCall testHash env1 stWFC (.commit 1 12345)).1.games 1 =
        stWFC.games 1) :=
  commit_board_transition testHash env1 stWFC 1 12345 (by decide) (by decide)
    (by decide)

theorem revealFinish_post (env : CallEnv) (st : ContractState)
    (game_id leaf_index : Nat) (G : Game) (st' : ContractState)
    (xfs : List Xfer)
    (h : revealFinish env st game_id leaf_index G = .ok (st', xfs)) :
    st' = setGame (setRevealed st game_id env.caller leaf_index) game_id
      { G with has_pending_attack := false, current_turn := env.caller
               last_move_time := env.timestamp } ∧ xfs = [] := by
  simp only [revealFinish, Except.ok.injEq, Prod.mk.injEq] at h
  exact ⟨h.1.symm, h.2.symm⟩

set_option maxHeartbeats 2000000 in
/-- C4: a successful `reveal` marks the cell revealed for the defender,
increments the attacker's hit counter by exactly 1 iff `is_hit`, clears the
pending attack and hands the turn to the revealer; it performs no STRK
transfer. -/
theorem reveal_effects (H : Nat → Nat → Nat) (env : CallEnv)
    (st : ContractState) (game_id x y : Nat) (is_hit : Bool) (salt : Nat)
    (proof : List Nat) (st' : ContractState) (xfs : List Xfer)
    (hok : reveal H env st game_id x y is_hit salt proof = .ok (st', xfs)) :
    RevealPost st game_id x y is_hit env.caller st' ∧ xfs = [] := by
  simp only [reveal] at hok
  by_cases h1 : (st.games game_id).id = 0
  · rw [if_pos h1] at hok; exact Except.noConfusion hok
  rw [if_neg h1] at hok
  by_cases h2 : (st.games game_id).status ≠ GameStatus.InProgress
  · rw [if_pos h2] at hok; exact Except.noConfusion hok
  rw [if_neg h2] at hok
  by_cases h3 : (!(st.games game_id).has_pending_attack) = true
  · rw [if_pos h3] at hok; exact Except.noConfusion hok
  rw [if_neg h3] at hok
  by_cases h4 : env.caller ≠ (st.games game_id).current_turn
  · rw [if_pos h4] at hok; exact Except.noConfusion hok
  rw [if_neg h4] at hok
  by_cases h5 : x ≠ (st.games game_id).pending_attack_x
  · rw [if_pos h5] at hok; exact Except.noConfusion hok
  rw [if_neg h5] at hok
  by_cases h6 : y ≠ (st.games game_id).pending_attack_y
  · rw [if_pos h6] at hok; exact Except.noConfusion hok
  rw [if_neg h6] at hok
  by_cases h7 : (!verify_proof H
      (if env.caller = (st.games game_id).player1 then
        (st.games game_id).player1_root
      else (st.games game_id).player2_root)
      (compute_leaf H x y (if is_hit = true then 1 else 0) salt) proof
      (coords_to_index x y)) = true
  · rw [if_pos h7] at hok; exact Except.noConfusion hok
  rw [if_neg h7] at hok
  by_cases h8 : is_hit = true
  · rw [if_pos h8] at hok
    by_cases h9 : (if env.caller = (st.games game_id).player1 then
        (st.games game_id).player2 else (st.games game_id).player1) =
          (st.games game_id).player1
    · rw [if_pos h9] at hok
      by_cases h10 : (st.games game_id).player1_hits + 1 ≥ U8_MOD
      · rw [if_pos h10] at hok; exact Except.noConfusion hok
      rw [if_neg h10] at hok
      obtain ⟨rfl, rfl⟩ := revealFinish_post _ _ _ _ _ _ _ hok
      refine ⟨?_, rfl⟩
      simp [RevealPost, h8, h9]
    · rw [if_neg h9] at hok
      by_cases h11 : (st.games game_id).player2_hits + 1 ≥ U8_MOD
      · rw [if_pos h11] at hok; exact Except.noConfusion hok
      rw [if_neg h11] at hok
      obtain ⟨rfl, rfl⟩ := revealFinish_post _ _ _ _ _ _ _ hok
      refine ⟨?_, rfl⟩
      simp [RevealPost, h8, h9]
  · rw [if_neg h8] at hok
    obtain ⟨rfl, rfl⟩ := revealFinish_post _ _ _ _ _ _ _ hok
    refine ⟨?_, rfl⟩
    simp [RevealPost, h8]

/-- C4 witness: defender 7 successfully reveals a hit at (3,4). -/
theorem reveal_effects_witness :
    RevealPost stIP 1 3 4 true env1.caller stIPAfterReveal ∧
      ([] : List Xfer) = [] :=
  reveal_effects testHash env1 stIP 1 3 4 true 5 [] stIPAfterReveal []
    (by rfl)

/-- C6: in an `InProgress` game (payout arithmetic in range, transfer
succeeding), `claim_victory` fails with `NotEnoughHits` when the caller has
`HITS_TO_WIN - 1 = 6` hits, and succeeds — finishing the game with the
caller as winner — when the caller has exactly `HITS_TO_WIN = 7` hits. -/
theorem claim_victory_threshold (env : CallEnv) (st : ContractState)
    (game_id : Nat)
    (hid : ¬ (st.games game_id).id = 0)
    (hst : (st.games game_id).status = .InProgress)
    (hpl : env.caller = (st.games game_id).player1 ∨
           env.caller = (st.games game_id).player2)
    (hxfer : env.transferOk = true)
    (hov1 : (st.games game_id).stake_amount * 2 < U256_MOD)
    (hov2 : (st.games game_id).stake_amount * 2 * HOUSE_FEE_BPS < U256_MOD)
    (hov3 : st.house_balance +
      (st.games game_id).stake_amount * 2 * HOUSE_FEE_BPS / 10000 <
        U256_MOD) :
    (callerHits (st.games game_id) env.caller = HITS_TO_WIN - 1 →
      claim_victory env st game_id = .error .NotEnoughHits) ∧
    (callerHits (st.games game_id) env.caller = HITS_TO_WIN →
      ∃ st' xfs, claim_victory env st game_id = .ok (st', xfs) ∧
        (st'.games game_id).status = GameStatus.Finished ∧
        (st'.games game_id).winner = env.caller) := by
  simp only [claim_victory]
  rw [if_neg hid, if_neg (by simp [hst]), if_neg (not_not_intro hpl)]
  constructor
  · intro h6
    rw [callerHits] at h6
    rw [if_pos (by rw [h6]; decide)]
  · intro h7
    rw [callerHits] at h7
    rw [if_neg (by rw [h7]; decide), if_neg (by omega), if_neg (by omega),
      if_neg (by omega), if_neg (by simp [hxfer])]
    refine ⟨_, _, rfl, ?_, ?_⟩
    · simp [setGame]
    · simp [setGame]

/-- C6 witness: player 7, sitting at exactly 7 hits, on the fixture game. -/
theorem claim_victory_threshold_witness :
    (callerHits (stV.games 1) env1.caller = HITS_TO_WIN - 1 →
      claim_victory env1 stV 1 = .error .NotEnoughHits) ∧
    (callerHits (stV.games 1) env1.caller = HITS_TO_WIN →
      ∃ st' xfs, claim_victory env1 stV 1 = .ok (st', xfs) ∧
        (st'.games 1).status = GameStatus.Finished ∧
        (st'.games 1).winner = env1.caller) :=
  claim_victory_threshold env1 stV 1 (by decide) (by decide) (by decide)
    (by decide) (by decide) (by decide) (by decide)

/-- C7: with `stake_amount = 10^18` per player and the contract's
`HOUSE_FEE_BPS = 100`, a successful `claim_victory` pays exactly
`1.98·10^18` to the winner and grows the house balance by exactly
`2·10^16` (pot `2·10^18`, fee `2·10^16`, truncating division). -/
theorem claim_victory_payout (env : CallEnv) (st : ContractState)
    (game_id : Nat)
    (hid : ¬ (st.games game_id).id = 0)
    (hst : (st.games game_id).status = .InProgress)
    (hpl : env.caller = (st.games game_id).player1 ∨
           env.caller = (st.games game_id).player2)
    (hhits : HITS_TO_WIN ≤ callerHits (st.games game_id) env.caller)
    (hstake : (st.games game_id).stake_amount = 10 ^ 18)
    (hxfer : env.transferOk = true)
    (hov : st.house_balance + 2 * 10 ^ 16 < U256_MOD) :
    ∃ st', claim_victory env st game_id =
        .ok (st', [.toUser env.caller (198 * 10 ^ 16)]) ∧
      st'.house_balance = st.house_balance + 2 * 10 ^ 16 := by
  simp only [claim_victory]
  rw [if_neg hid, if_neg (by simp [hst]), if_neg (not_not_intro hpl)]
  rw [callerHits] at hhits
  rw [if_neg (by omega), hstake]
  rw [if_neg (by norm_num [U256_MOD])]
  rw [if_neg (by norm_num [U256_MOD, HOUSE_FEE_BPS])]
  have hfee : (10 : Nat) ^ 18 * 2 * HOUSE_FEE_BPS / 10000 = 2 * 10 ^ 16 := by
    norm_num [HOUSE_FEE_BPS]
  rw [hfee]
  rw [if_neg (by omega), if_neg (by simp [hxfer])]
  have hpay : (10 : Nat) ^ 18 * 2 - 2 * 10 ^ 16 = 198 * 10 ^ 16 := by
    norm_num
  rw [hpay]
  exact ⟨_, rfl, rfl⟩

/-- C7 witness: the payout arithmetic at the fixture game (stake `10^18`,
house balance 0). -/
theorem claim_victory_payout_witness :
    ∃ st', claim_victory env1 stV 1 =
        .ok (st', [.toUser env1.caller (198 * 10 ^ 16)]) ∧
      st'.house_balance = stV.house_balance + 2 * 10 ^ 16 :=
  claim_victory_payout env1 stV 1 (by decide) (by decide) (by decide)
    (by decide) (by decide) (by decide) (by decide)

/-! ## C8: claim_timeout boundary -/

/-- C8: with a well-defined timed-out counterparty (clock monotone, transfer
succeeding, pot arithmetic in range), `claim_timeout` fails with
`TimeoutNotReached` while `now - last_move_time < DEFAULT_TIMEOUT` and
succeeds at `now - last_move_time = DEFAULT_TIMEOUT` exactly: the boundary
is inclusive. -/
theorem claim_timeout_boundary (env : CallEnv) (st : ContractState)
    (game_id : Nat)
    (hid : ¬ (st.games game_id).id = 0)
    (hact : (st.games game_id).status = .WaitingForCommitments ∨
            (st.games game_id).status = .InProgress)
    (hpl : env.caller = (st.games game_id).player1 ∨
           env.caller = (st.games game_id).player2)
    (hparty : ¬ timed_out_player (st.games game_id) env.caller = 0)
    (hclock : (st.games game_id).last_move_time ≤ env.timestamp)
    (hxfer : env.transferOk = true)
    (hov : (st.games game_id).stake_amount * 2 < U256_MOD) :
    (env.timestamp - (st.games game_id).last_move_time < DEFAULT_TIMEOUT →
      claim_timeout env st game_id = .error .TimeoutNotReached) ∧
    (env.timestamp - (st.games game_id).last_move_time = DEFAULT_TIMEOUT →
      ∃ st' xfs, claim_timeout env st game_id = .ok (st', xfs) ∧
        (st'.games game_id).status = GameStatus.Forfeited ∧
        (st'.games game_id).winner = env.caller) := by
  simp only [claim_timeout]
  rw [if_neg hid, if_neg (not_not_intro hact), if_neg (not_not_intro hpl),
    if_neg hparty, if_neg (by omega)]
  constructor
  · intro hlt
    rw [if_pos hlt]
  · intro heq
    rw [if_neg (by omega)]
    by_cases hsb : (st.games game_id).status = GameStatus.WaitingForCommitments ∧
      (st.games game_id).player2 = 0
    · rw [if_pos hsb, if_neg (by simp [hxfer])]
      exact ⟨_, _, rfl, by simp [setGame], by simp [setGame]⟩
    · rw [if_neg hsb, if_neg (by omega), if_neg (by simp [hxfer])]
      exact ⟨_, _, rfl, by simp [setGame], by simp [setGame]⟩

/-- C8 witness: player 7 claiming the uncommitted opponent's timeout at
exactly `last_move_time + DEFAULT_TIMEOUT`. -/
theorem claim_timeout_boundary_witness :
    (envT.timestamp - (stWFC.games 1).last_move_time < DEFAULT_TIMEOUT →
      claim_timeout envT stWFC 1 = .error .TimeoutNotReached) ∧
    (envT.timestamp - (stWFC.games 1).last_move_time = DEFAULT_TIMEOUT →
      ∃ st' xfs, claim_timeout envT stWFC 1 = .ok (st', xfs) ∧
        (st'.games 1).status = GameStatus.Forfeited ∧
        (st'.games 1).winner = envT.caller) :=
  claim_timeout_boundary envT stWFC 1 (by decide) (by decide) (by decide)
    (by decide) (by decide) (by decide) (by decide)

/-! ## C9: what can touch a game with a pending attack -/

theorem create_game_ok_inv (env : CallEnv) (st : ContractState)
    (stake_amount : Nat) (st' : ContractState) (xfs : List Xfer)
    (hok : create_game env st stake_amount = .ok (st', xfs)) :
    ∀ k, k ≤ st.game_count → st'.games k = st.games k := by
  simp only [create_game] at hok
  split_ifs at hok
  simp only [Except.ok.injEq, Prod.mk.injEq] at hok
  obtain ⟨h5, -⟩ := hok
  intro k hk
  rw [← h5, setGame_games_other _ _ _ _ (by omega)]

theorem join_game_ok_inv (env : CallEnv) (st : ContractState)
    (game_id : Nat) (st' : ContractState) (xfs : List Xfer)
    (hok : join_game env st game_id = .ok (st', xfs)) :
    (st.games game_id).status = GameStatus.WaitingForOpponent ∧
    ∀ k, k ≠ game_id → st'.games k = st.games k := by
  simp only [join_game] at hok
  split_ifs at hok with h1 h2 h3 h4
  simp only [Except.ok.injEq, Prod.mk.injEq] at hok
  obtain ⟨h5, -⟩ := hok
  refine ⟨not_not.mp h2, fun k hk => ?_⟩
  rw [← h5, setGame_games_other _ _ _ _ hk]

theorem commit_board_ok_inv (env : CallEnv) (st : ContractState)
    (game_id merkle_root : Nat) (st' : ContractState) (xfs : List Xfer)
    (hok : commit_board env st game_id merkle_root = .ok (st', xfs)) :
    (st.games game_id).status = GameStatus.WaitingForCommitments ∧
    ∀ k, k ≠ game_id → st'.games k = st.games k := by
  simp only [commit_board] at hok
  split_ifs at hok with h1 h2 h3 h4 h5 h6
  all_goals
    simp only [Except.ok.injEq, Prod.mk.injEq] at hok
  · obtain ⟨h7, -⟩ := hok
    refine ⟨not_not.mp h2, fun k hk => ?_⟩
    rw [← h7, setGame_games_other _ _ _ _ hk]
  · obtain ⟨h7, -⟩ := hok
    refine ⟨not_not.mp h2, fun k hk => ?_⟩
    rw [← h7, setGame_games_other _ _ _ _ hk]

theorem attack_ok_inv (env : CallEnv) (st : ContractState)
    (game_id x y : Nat) (st' : ContractState) (xfs : List Xfer)
    (hok : attack env st game_id x y = .ok (st', xfs)) :
    (st.games game_id).has_pending_attack = false ∧
    ∀ k, k ≠ game_id → st'.games k = st.games k := by
  simp only [attack] at hok
  split_ifs at hok with h1 h2 h3 h4 h5 h6 h7 h8 h9
  all_goals
    simp only [Except.ok.injEq, Prod.mk.injEq] at hok
  all_goals
    obtain ⟨hs, -⟩ := hok
    refine ⟨by simpa using h3, fun k hk => ?_⟩
    rw [← hs, setGame_games_other _ _ _ _ hk]

theorem reveal_ok_inv (H : Nat → Nat → Nat) (env : CallEnv)
    (st : ContractState) (game_id x y : Nat) (is_hit : Bool) (salt : Nat)
    (proof : List Nat) (st' : ContractState) (xfs : List Xfer)
    (hok : reveal H env st game_id x y is_hit salt proof = .ok (st', xfs)) :
    ∀ k, k ≠ game_id → st'.games k = st.games k := by
  simp only [reveal] at hok
  by_cases h1 : (st.games game_id).id = 0
  · rw [if_pos h1] at hok; exact Except.noConfusion hok
  rw [if_neg h1] at hok
  by_cases h2 : (st.games game_id).status ≠ GameStatus.InProgress
  · rw [if_pos h2] at hok; exact Except.noConfusion hok
  rw [if_neg h2] at hok
  by_cases h3 : (!(st.games game_id).has_pending_attack) = true
  · rw [if_pos h3] at hok; exact Except.noConfusion hok
  rw [if_neg h3] at hok
  by_cases h4 : env.caller ≠ (st.games game_id).current_turn
  · rw [if_pos h4] at hok; exact Except.noConfusion hok
  rw [if_neg h4] at hok
  by_cases h5 : x ≠ (st.games game_id).pending_attack_x
  · rw [if_pos h5] at hok; exact Except.noConfusion hok
  rw [if_neg h5] at hok
  by_cases h6 : y ≠ (st.games game_id).pending_attack_y
  · rw [if_pos h6] at hok; exact Except.noConfusion hok
  rw [if_neg h6] at hok
  by_cases h7 : (!verify_proof H
      (if env.caller = (st.games game_id).player1 then
        (st.games game_id).player1_root
      else (st.games game_id).player2_root)
      (compute_leaf H x y (if is_hit = true then 1 else 0) salt) proof
      (coords_to_index x y)) = true
  · rw [if_pos h7] at hok; exact Except.noConfusion hok
  rw [if_neg h7] at hok
  by_cases h8 : is_hit = true
  · rw [if_pos h8] at hok
    by_cases h9 : (if env.caller = (st.games game_id).player1 then
        (st.games game_id).player2 else (st.games game_id).player1) =
          (st.games game_id).player1
    · rw [if_pos h9] at hok
      by_cases h10 : (st.games game_id).player1_hits + 1 ≥ U8_MOD
      · rw [if_pos h10] at hok; exact Except.noConfusion hok
      rw [if_neg h10] at hok
      obtain ⟨rfl, rfl⟩ := revealFinish_post _ _ _ _ _ _ _ hok
      intro k hk
      rw [setGame_games_other _ _ _ _ hk, setRevealed_games]
    · rw [if_neg h9] at hok
      by_cases h11 : (st.games game_id).player2_hits + 1 ≥ U8_MOD
      · rw [if_pos h11] at hok; exact Except.noConfusion hok
      rw [if_neg h11] at hok
      obtain ⟨rfl, rfl⟩ := revealFinish_post _ _ _ _ _ _ _ hok
      intro k hk
      rw [setGame_games_other _ _ _ _ hk, setRevealed_games]
  · rw [if_neg h8] at hok
    obtain ⟨rfl, rfl⟩ := revealFinish_post _ _ _ _ _ _ _ hok
    intro k hk
    rw [setGame_games_other _ _ _ _ hk, setRevealed_games]

theorem claim_victory_ok_inv (env : CallEnv) (st : ContractState)
    (game_id : Nat) (st' : ContractState) (xfs : List Xfer)
    (hok : claim_victory env st game_id = .ok (st', xfs)) :
    ∀ k, k ≠ game_id → st'.games k = st.games k := by
  simp only [claim_victory] at hok
  split_ifs at hok
  all_goals
    simp only [Except.ok.injEq, Prod.mk.injEq] at hok
  all_goals
    obtain ⟨hs, -⟩ := hok
    intro k hk
    rw [← hs]
    show (setGame st game_id _).games k = st.games k
    rw [setGame_games_other _ _ _ _ hk]

theorem claim_timeout_ok_inv (env : CallEnv) (st : ContractState)
    (game_id : Nat) (st' : ContractState) (xfs : List Xfer)
    (hok : claim_timeout env st game_id = .ok (st', xfs)) :
    ∀ k, k ≠ game_id → st'.games k = st.games k := by
  simp only [claim_timeout] at hok
  split_ifs at hok
  all_goals
    simp only [Except.ok.injEq, Prod.mk.injEq] at hok
  · obtain ⟨h9, -⟩ := hok
    intro k hk
    rw [← h9, setGame_games_other _ _ _ _ hk]
  · obtain ⟨h9, -⟩ := hok
    intro k hk
    rw [← h9, setGame_games_other _ _ _ _ hk]

theorem withdraw_ok_inv (env : CallEnv) (st : ContractState) (amount : Nat)
    (st' : ContractState) (xfs : List Xfer)
    (hok : withdraw_house_funds env st amount = .ok (st', xfs)) :
    st'.games = st.games := by
  simp only [withdraw_house_funds] at hok
  split_ifs at hok
  simp only [Except.ok.injEq, Prod.mk.injEq] at hok
  obtain ⟨h4, -⟩ := hok
  rw [← h4]

theorem transfer_ownership_ok_inv (env : CallEnv) (st : ContractState)
    (new_owner : Nat) (st' : ContractState) (xfs : List Xfer)
    (hok : transfer_ownership env st new_owner = .ok (st', xfs)) :
    st'.games = st.games := by
  simp only [transfer_ownership] at hok
  split_ifs at hok
  simp only [Except.ok.injEq, Prod.mk.injEq] at hok
  obtain ⟨h3, -⟩ := hok
  rw [← h3]

/-- C9 (amended): while a game is `InProgress` with a pending attack, every
call other than `reveal`, `claim_timeout` or `claim_victory` on that game
leaves its `Game` record unchanged — in particular `join_game`,
`commit_board` and a second `attack` on it fail.  (`claim_victory` is the
exception the original claim missed: it does not check
`has_pending_attack`, see `claim_victory_during_pending_attack`.) -/
theorem pending_attack_locks_game (H : Nat → Nat → Nat) (env : CallEnv)
    (st : ContractState) (game_id : Nat) (c : Call)
    (hpend : (st.games game_id).has_pending_attack = true)
    (hst : (st.games game_id).status = GameStatus.InProgress)
    (hcount : game_id ≤ st.game_count)
    (hc : mayModifyGame c game_id = false) :
    (execCall H env st c).1.games game_id = st.games game_id := by
  unfold execCall
  cases hd : dispatch H env st c with
  | error e => rfl
  | ok v =>
    obtain ⟨st', xfs⟩ := v
    show st'.games game_id = st.games game_id
    cases c with
    | create stake_amount =>
        exact create_game_ok_inv env st stake_amount st' xfs hd game_id hcount
    | join gid =>
        by_cases hg : game_id = gid
        · subst hg
          have h := (join_game_ok_inv env st game_id st' xfs hd).1
          rw [hst] at h
          exact GameStatus.noConfusion h
        · exact (join_game_ok_inv env st gid st' xfs hd).2 game_id hg
    | commit gid merkle_root =>
        by_cases hg : game_id = gid
        · subst hg
          have h := (commit_board_ok_inv env st game_id merkle_root st' xfs
            hd).1
          rw [hst] at h
          exact GameStatus.noConfusion h
        · exact (commit_board_ok_inv env st gid merkle_root st' xfs hd).2
            game_id hg
    | atk gid x y =>
        by_cases hg : game_id = gid
        · subst hg
          have h := (attack_ok_inv env st game_id x y st' xfs hd).1
          rw [hpend] at h
          exact Bool.noConfusion h
        · exact (attack_ok_inv env st gid x y st' xfs hd).2 game_id hg
    | rev gid x y is_hit salt proof =>
        have hg : gid ≠ game_id := by simpa [mayModifyGame] using hc
        exact reveal_ok_inv H env st gid x y is_hit salt proof st' xfs hd
          game_id (Ne.symm hg)
    | victory gid =>
        have hg : gid ≠ game_id := by simpa [mayModifyGame] using hc
        exact claim_victory_ok_inv env st gid st' xfs hd game_id (Ne.symm hg)
    | timeout gid =>
        have hg : gid ≠ game_id := by simpa [mayModifyGame] using hc
        exact claim_timeout_ok_inv env st gid st' xfs hd game_id (Ne.symm hg)
    | withdraw amount =>
        rw [withdraw_ok_inv env st amount st' xfs hd]
    | setOwner new_owner =>
        rw [transfer_ownership_ok_inv env st new_owner st' xfs hd]

/-- C9 counterexample to the claim as stated: on a game with a pending
attack, `claim_victory` (an operation that is neither `reveal` nor
`claim_timeout`) succeeds — it never checks `has_pending_attack` — and
modifies the `Game` record. -/
theorem claim_victory_during_pending_attack :
    (stVP.games 1).has_pending_attack = true ∧
    (stVP.games 1).status = GameStatus.InProgress ∧
    (execCall testHash env1 stVP (.victory 1)).2.2 = none ∧
    ((execCall testHash env1 stVP (.victory 1)).1.games 1).status =
      GameStatus.Finished ∧
    (execCall testHash env1 stVP (.victory 1)).1.games 1 ≠ stVP.games 1 := by
  decide

/-- C9 witness: a second `attack` on the pending-attack fixture leaves the
game record unchanged. -/
theorem pending_attack_locks_game_witness :
    (execCall testHash env1 stVP (.atk 1 4 4)).1.games 1 = stVP.games 1 :=
  pending_attack_locks_game testHash env1 stVP 1 (.atk 1 4 4) (by decide)
    (by decide) (by decide) (by decide)

theorem join_game_ok_xfs (env : CallEnv) (st : ContractState)
    (game_id : Nat) (st' : ContractState) (xfs : List Xfer)
    (hok : join_game env st game_id = .ok (st', xfs)) :
    xfs = [.fromUser env.caller (st.games game_id).stake_amount] := by
  simp only [join_game] at hok
  split_ifs at hok
  simp only [Except.ok.injEq, Prod.mk.injEq] at hok
  exact hok.2.symm

/-- C10: a game still in `WaitingForOpponent` is not timeout-claimable (nor
victory-claimable), and no call addressed to it ever transfers STRK out of
the contract — the creator's stake is locked for good if nobody joins.
Moreover every successful `claim_timeout` happens on a game whose player 2
has joined, and pays exactly `stake_amount * 2` to the caller: the
single-stake payout branch is unreachable (callers have non-zero
addresses). -/
theorem unjoined_game_locks_stake (H : Nat → Nat → Nat) (env : CallEnv)
    (st : ContractState) (game_id : Nat)
    (hcaller : env.caller ≠ 0)
    (hinv : (st.games game_id).status = GameStatus.InProgress →
      (st.games game_id).player2 ≠ 0) :
    ((st.games game_id).status = GameStatus.WaitingForOpponent →
      (∃ e, claim_timeout env st game_id = .error e) ∧
      (∃ e, claim_victory env st game_id = .error e) ∧
      ∀ c, callTarget c = some game_id →
        ((execCall H env st c).2.1.all fun x => !isPayout x) = true) ∧
    (∀ st' xfs, claim_timeout env st game_id = .ok (st', xfs) →
      (st.games game_id).player2 ≠ 0 ∧
      xfs = [.toUser env.caller ((st.games game_id).stake_amount * 2)]) := by
  constructor
  · intro hwfo
    have htimeout_err : ∃ e, claim_timeout env st game_id = .error e := by
      simp only [claim_timeout]
      by_cases h1 : (st.games game_id).id = 0
      · rw [if_pos h1]; exact ⟨_, rfl⟩
      · rw [if_neg h1, if_pos (by simp [hwfo])]; exact ⟨_, rfl⟩
    have hvict_err : ∃ e, claim_victory env st game_id = .error e := by
      simp only [claim_victory]
      by_cases h1 : (st.games game_id).id = 0
      · rw [if_pos h1]; exact ⟨_, rfl⟩
      · rw [if_neg h1, if_pos (by simp [hwfo])]; exact ⟨_, rfl⟩
    refine ⟨htimeout_err, hvict_err, ?_⟩
    intro c hc
    cases c with
    | create stake_amount => exact absurd hc (by simp [callTarget])
    | withdraw amount => exact absurd hc (by simp [callTarget])
    | setOwner new_owner => exact absurd hc (by simp [callTarget])
    | join gid =>
        obtain rfl : gid = game_id := by simpa [callTarget] using hc
        unfold execCall
        cases hd : dispatch H env st (.join gid) with
        | error e => rfl
        | ok v =>
            obtain ⟨st', xfs⟩ := v
            have hxfs := join_game_ok_xfs env st gid st' xfs hd
            show (xfs.all fun x => !isPayout x) = true
            rw [hxfs]
            rfl
    | commit gid merkle_root =>
        obtain rfl : gid = game_id := by simpa [callTarget] using hc
        have herr : ∃ e, commit_board env st gid merkle_root = .error e := by
          simp only [commit_board]
          by_cases h1 : (st.games gid).id = 0
          · rw [if_pos h1]; exact ⟨_, rfl⟩
          · rw [if_neg h1, if_pos (by simp [hwfo])]; exact ⟨_, rfl⟩
        obtain ⟨e, he⟩ := herr
        unfold execCall
        rw [show dispatch H env st (.commit gid merkle_root) =
          commit_board env st gid merkle_root from rfl, he]
        rfl
    | atk gid x y =>
        obtain rfl : gid = game_id := by simpa [callTarget] using hc
        have herr : ∃ e, attack env st gid x y = .error e := by
          simp only [attack]
          by_cases h1 : (st.games gid).id = 0
          · rw [if_pos h1]; exact ⟨_, rfl⟩
          · rw [if_neg h1, if_pos (by simp [hwfo])]; exact ⟨_, rfl⟩
        obtain ⟨e, he⟩ := herr
        unfold execCall
        rw [show dispatch H env st (.atk gid x y) =
          attack env st gid x y from rfl, he]
        rfl
    | rev gid x y is_hit salt proof =>
        obtain rfl : gid = game_id := by simpa [callTarget] using hc
        have herr : ∃ e,
            reveal H env st gid x y is_hit salt proof = .error e := by
          simp only [reveal]
          by_cases h1 : (st.games gid).id = 0
          · rw [if_pos h1]; exact ⟨_, rfl⟩
          · rw [if_neg h1, if_pos (by simp [hwfo])]; exact ⟨_, rfl⟩
        obtain ⟨e, he⟩ := herr
        unfold execCall
        rw [show dispatch H env st (.rev gid x y is_hit salt proof) =
          reveal H env st gid x y is_hit salt proof from rfl, he]
        rfl
    | victory gid =>
        obtain rfl : gid = game_id := by simpa [callTarget] using hc
        obtain ⟨e, he⟩ := hvict_err
        unfold execCall
        rw [show dispatch H env st (.victory gid) =
          claim_victory env st gid from rfl, he]
        rfl
    | timeout gid =>
        obtain rfl : gid = game_id := by simpa [callTarget] using hc
        obtain ⟨e, he⟩ := htimeout_err
        unfold execCall
        rw [show dispatch H env st (.timeout gid) =
          claim_timeout env st gid from rfl, he]
        rfl
  · intro st' xfs hok
    simp only [claim_timeout] at hok
    by_cases h1 : (st.games game_id).id = 0
    · rw [if_pos h1] at hok; exact Except.noConfusion hok
    rw [if_neg h1] at hok
    by_cases h2 : ¬((st.games game_id).status =
        GameStatus.WaitingForCommitments ∨
        (st.games game_id).status = GameStatus.InProgress)
    · rw [if_pos h2] at hok; exact Except.noConfusion hok
    rw [if_neg h2] at hok
    by_cases h3 : ¬(env.caller = (st.games game_id).player1 ∨
        env.caller = (st.games game_id).player2)
    · rw [if_pos h3] at hok; exact Except.noConfusion hok
    rw [if_neg h3] at hok
    by_cases h4 : timed_out_player (st.games game_id) env.caller = 0
    · rw [if_pos h4] at hok; exact Except.noConfusion hok
    rw [if_neg h4] at hok
    by_cases h5 : env.timestamp < (st.games game_id).last_move_time
    · rw [if_pos h5] at hok; exact Except.noConfusion hok
    rw [if_neg h5] at hok
    by_cases h6 : env.timestamp - (st.games game_id).last_move_time <
        DEFAULT_TIMEOUT
    · rw [if_pos h6] at hok; exact Except.noConfusion hok
    rw [if_neg h6] at hok
    by_cases h7 : (st.games game_id).status =
        GameStatus.WaitingForCommitments ∧ (st.games game_id).player2 = 0
    · exfalso
      obtain ⟨hwfc, hp2⟩ := h7
      apply h4
      rw [timed_out_player, if_pos hwfc, if_neg (by simp [hp2]),
        if_neg (fun hx => hcaller (hx.1.trans hp2))]
    rw [if_neg h7] at hok
    by_cases h8 : (st.games game_id).stake_amount * 2 ≥ U256_MOD
    · rw [if_pos h8] at hok; exact Except.noConfusion hok
    rw [if_neg h8] at hok
    by_cases h9 : (!env.transferOk) = true
    · rw [if_pos h9] at hok; exact Except.noConfusion hok
    rw [if_neg h9] at hok
    simp only [Except.ok.injEq, Prod.mk.injEq] at hok
    refine ⟨?_, hok.2.symm⟩
    rcases not_not.mp h2 with hwfc | hip
    · intro hp2; exact h7 ⟨hwfc, hp2⟩
    · exact hinv hip

/-- C10 witness: the creator (player 7) of the never-joined fixture game. -/
theorem unjoined_game_locks_stake_witness :
    ((stWFO.games 1).status = GameStatus.WaitingForOpponent →
      (∃ e, claim_timeout env1 stWFO 1 = .error e) ∧
      (∃ e, claim_victory env1 stWFO 1 = .error e) ∧
      ∀ c, callTarget c = some 1 →
        ((execCall testHash env1 stWFO c).2.1.all fun x => !isPayout x) =
          true) ∧
    (∀ st' xfs, claim_timeout env1 stWFO 1 = .ok (st', xfs) →
      (stWFO.games 1).player2 ≠ 0 ∧
      xfs = [.toUser env1.caller ((stWFO.games 1).stake_amount * 2)]) :=
  unjoined_game_locks_stake testHash env1 stWFO 1 (by decide) (by decide)

end StarkFleet
